import Mathlib

/-!
Verification of the git probe of promptline (`src/main.rs`).

The development shallowly embeds `get_git_info` (main.rs lines 353-407) and the
pieces it depends on: the `GitError` enum (lines 311-321), the ANSI decoration
applied to the output (lines 403-406, `DecoratedString::colored(Green).bold()`),
and the Rust string and path operations the function uses.

Modelling conventions:
* A filesystem path is a list of components; an absolute path is the list of
  components below the root.  `RPath` carries a relative/absolute flag, mirroring
  Rust `PathBuf` values such as the one parsed from a `gitdir: ` redirect.
* The filesystem is a finite association list from absolute component lists to
  entries (directory, or file with a readability flag and string content).
  `FS.readToString` models `std::fs::read_to_string`: it succeeds exactly on a
  readable file, and fails on directories, unreadable files and missing paths.
  The operating system resolves a relative path against the process working
  directory; `resolve` models this.
* Rust strings are UTF-8; `&s[..14]` is a byte slice which panics when the
  string has fewer than 14 bytes or byte offset 14 is not a character boundary.
  `byteTake` returns `none` exactly in the panicking cases, and the outcome type
  of the embedded probe has an explicit `panicked` constructor.
* Process-level inputs (`env::current_dir`, `fs::canonicalize`) are supplied as
  fields of `PEnv`; each may fail, mirroring the `Result`s in the source.
-/

/-- Rust `str::trim` on the character list of a string: drop whitespace from
both ends. -/
def trimChars (l : List Char) : List Char :=
  ((l.dropWhile Char.isWhitespace).reverse.dropWhile Char.isWhitespace).reverse

/-- Rust `str::trim`. -/
def strTrim (s : String) : String :=
  String.mk (trimChars s.data)

/-- Rust `str::strip_prefix pat`: when `pat` is a prefix of `s`, the remainder,
otherwise `none`. -/
def stripStart (pat s : String) : Option String :=
  if pat.data.isPrefixOf s.data then some (String.mk (s.data.drop pat.data.length))
  else none

/-- Split a character list at every `/` separator (the component split used by
Rust `Path`). -/
def splitSlash : List Char → List (List Char)
  | [] => [[]]
  | c :: cs =>
    if c = '/' then [] :: splitSlash cs
    else
      match splitSlash cs with
      | [] => [[c]]
      | g :: gs => (c :: g) :: gs

/-- A Rust `Path`/`PathBuf` value: absolute or relative, with its normal
components. -/
structure RPath where
  abs : Bool
  comps : List String
deriving DecidableEq, Repr

/-- Rust `Path::new` on a string: absolute iff it starts with `/`; the
components are the slash-separated pieces, with empty and `.` pieces dropped
(as Rust `Path::components` normalizes them). -/
def parsePath (s : String) : RPath :=
  ⟨"/".data.isPrefixOf s.data,
   ((splitSlash s.data).filter (fun c => !(c == [] || c == ['.']))).map String.mk⟩

/-- Rust `Path::join`: an absolute right operand replaces the left one,
otherwise the components are concatenated. -/
def RPath.join (p q : RPath) : RPath :=
  if q.abs then q else ⟨p.abs, p.comps ++ q.comps⟩

/-- Rust `Path::file_name`: the last component, or `none` when there is none or
it is `..`. -/
def RPath.fileName (p : RPath) : Option String :=
  match p.comps.getLast? with
  | some c => if c == ".." then none else some c
  | none => none

/-- Resolution of a path against the process working directory, as the
operating system does when a file is opened: an absolute path stands alone, a
relative one is interpreted below the working directory. -/
def resolve (cwd : List String) (p : RPath) : List String :=
  if p.abs then p.comps else cwd ++ p.comps

/-- The first characters of a character list occupying exactly `n` UTF-8 bytes;
`none` when the list is shorter than `n` bytes or byte offset `n` falls inside
a character.  This is the validity condition of a Rust byte slice `&s[..n]`. -/
def takeBytes : List Char → Nat → Option (List Char)
  | _, 0 => some []
  | [], _ + 1 => none
  | c :: cs, n + 1 =>
    if c.utf8Size ≤ n + 1 then
      (takeBytes cs (n + 1 - c.utf8Size)).map (fun l => c :: l)
    else none

/-- Rust byte slice `&s[..n]` as a total function: `none` models the panic. -/
def byteTake (s : String) (n : Nat) : Option String :=
  (takeBytes s.data n).map String.mk

/-- A filesystem entry: a directory, or a file with content; `readable = false`
models any file whose `read_to_string` fails (permissions, non-UTF-8 bytes). -/
inductive FSEntry
  | dir
  | file (readable : Bool) (content : String)
deriving DecidableEq, Repr

/-- A finite filesystem: association list from absolute paths (component lists)
to entries. -/
structure FS where
  entries : List (List String × FSEntry)
deriving DecidableEq, Repr

/-- Look up an absolute path. -/
def FS.lookup (fs : FS) (p : List String) : Option FSEntry :=
  (fs.entries.find? (fun e => e.1 == p)).map (fun e => e.2)

/-- Rust `Path::exists`. -/
def FS.pathExists (fs : FS) (p : List String) : Bool :=
  (fs.lookup p).isSome

/-- Rust `Path::is_file`. -/
def FS.isFile (fs : FS) (p : List String) : Bool :=
  match fs.lookup p with
  | some (.file _ _) => true
  | _ => false

/-- Rust `fs::read_to_string` at an already resolved absolute path. -/
def FS.readToString (fs : FS) (p : List String) : Except Unit String :=
  match fs.lookup p with
  | some (.file true c) => .ok c
  | _ => .error ()

/-- The loop condition of main.rs line 359: does `dir.join(".git")` exist? -/
def dirHasGit (fs : FS) (d : List String) : Bool :=
  fs.pathExists (d ++ [".git"])

/-- The ancestor walk of main.rs lines 357-364, in structural form: the
argument is the reversed component list of the directory still to be examined,
so that one recursion step is exactly one `Path::parent` step (dropping the
last component).  The root (empty component list) has no parent. -/
def findRepoAux (fs : FS) : List String → Option (List String)
  | [] => if dirHasGit fs [] then some [] else none
  | x :: xs =>
    if dirHasGit fs (x :: xs).reverse then some (x :: xs).reverse
    else findRepoAux fs xs

/-- The repository-root search of main.rs lines 357-366: walk upward from `d`,
one parent per step, and return the first directory with a `.git` child. -/
def findRepo (fs : FS) (d : List String) : Option (List String) :=
  findRepoAux fs d.reverse

/-- The chain visited by the walk, in reversed-component form. -/
def ancestorsRev : List String → List (List String)
  | [] => [[]]
  | x :: xs => (x :: xs).reverse :: ancestorsRev xs

/-- The directories the walk visits, nearest first: `d`, its parent, and so on
up to the root. -/
def ancestors (d : List String) : List (List String) :=
  ancestorsRev d.reverse

/-- The `GitError` enum of main.rs lines 311-321.  The `std::io::Error` payloads
are opaque to the probe's logic and are dropped. -/
inductive GitError
  | NoCwd
  | CanonicalCwd
  | ReadGitFile
  | ReadHead
  | NotGitRepo
  | UnexpectedGitContent
  | ReadRef
  | NoRefName
deriving DecidableEq, Repr

/-- The observable outcome of one call of `get_git_info`: a returned string, a
returned error, or a panic (Rust byte slicing out of range). -/
inductive Outcome
  | ok (s : String)
  | err (e : GitError)
  | panicked
deriving DecidableEq, Repr

/-- The decoration of main.rs lines 403-406:
`DecoratedString::new(s).colored(Color::Green).bold().to_ansi()`. -/
def ansiGreenBold (s : String) : String :=
  "\x1b[1m" ++ "\x1b[32m" ++ s ++ "\x1b[39m" ++ "\x1b[22m"

/-- The process environment the probe consumes: the result of
`env::current_dir`, the behaviour of `fs::canonicalize`, and the filesystem. -/
structure PEnv where
  currentDir : Except Unit (List String)
  canonical : List String → Except Unit (List String)
  fs : FS

/-- Redirect resolution, main.rs lines 370-380: when `repo/.git` is a regular
file its content must start with `gitdir: `, and the trimmed remainder (parsed
as a path, possibly relative) becomes the metadata directory; when it is not a
file, `repo/.git` itself is the metadata directory. -/
def resolveGitDir (fs : FS) (repo : List String) : Except GitError RPath :=
  if fs.isFile (repo ++ [".git"]) then
    match fs.readToString (repo ++ [".git"]) with
    | .error _ => .error .ReadGitFile
    | .ok content =>
      match stripStart "gitdir: " content with
      | some v => .ok (parsePath (strTrim v))
      | none => .error .UnexpectedGitContent
  else .ok ⟨true, repo ++ [".git"]⟩

/-- Head reading and formatting, main.rs lines 382-406, starting from the
resolved metadata directory.  Relative reads resolve against the process
working directory `cwd`. -/
def gitInfoWithGitDir (fs : FS) (cwd : List String) (gitDir : RPath) : Outcome :=
  match fs.readToString (resolve cwd (gitDir.join ⟨false, ["HEAD"]⟩)) with
  | .error _ => .err .ReadHead
  | .ok headContent =>
    match stripStart "ref: " headContent with
    | some refsPathStr =>
      let refsPath := parsePath (strTrim refsPathStr)
      match fs.readToString (resolve cwd (gitDir.join refsPath)) with
      | .error _ => .err .ReadRef
      | .ok commitHash =>
        match byteTake commitHash 14 with
        | none => .panicked
        | some shortHash =>
          match refsPath.fileName with
          | none => .err .NoRefName
          | some refName => .ok (ansiGreenBold (refName ++ " " ++ shortHash))
    | none =>
      match byteTake headContent 14 with
      | none => .panicked
      | some s => .ok (ansiGreenBold s)

/-- The probe from the point where the repository root is known, main.rs lines
370-406. -/
def gitInfoAtRepo (fs : FS) (cwd : List String) (repo : List String) : Outcome :=
  match resolveGitDir fs repo with
  | .error e => .err e
  | .ok gitDir => gitInfoWithGitDir fs cwd gitDir

/-- The full probe `get_git_info`, main.rs lines 353-407. -/
def get_git_info (env : PEnv) : Outcome :=
  match env.currentDir with
  | .error _ => .err .NoCwd
  | .ok cwd =>
    match env.canonical cwd with
    | .error _ => .err .CanonicalCwd
    | .ok canonicalCwd =>
      match findRepo env.fs canonicalCwd with
      | none => .err .NotGitRepo
      | some repo => gitInfoAtRepo env.fs cwd repo

/-- The hexadecimal digits, as characters. -/
def hexDigits : List Char := "0123456789abcdefABCDEF".data

/-- The metadata directory described by the specification's redirection rule
(section 4.2): an absolute redirect target is taken exactly; a relative one is
resolved relative to the marker file's parent directory.  Stated from the
spec's words, to compare with the behaviour of `resolveGitDir`. -/
def specRedirectTarget (markerParent : List String) (v : String) : List String :=
  let p := parsePath (strTrim v)
  if p.abs then p.comps else markerParent ++ p.comps

/-- A repository on branch `main` at revision `0123456789abcdef0123456789abcdef01234567`,
probed from the subdirectory `/r/sub`. -/
def fsMain : FS := ⟨[
  (["r", ".git"], .dir),
  (["r", ".git", "HEAD"], .file true "ref: refs/heads/main\n"),
  (["r", ".git", "refs", "heads", "main"],
    .file true "0123456789abcdef0123456789abcdef01234567\n")
]⟩

/-- Probe environment over `fsMain`, canonicalization being the identity. -/
def envMain : PEnv := ⟨.ok ["r", "sub"], fun d => .ok d, fsMain⟩

/-- A repository whose HEAD holds only the three characters `abc`. -/
def fsShort : FS := ⟨[
  (["r", ".git"], .dir),
  (["r", ".git", "HEAD"], .file true "abc")
]⟩

/-- Probe environment over `fsShort`. -/
def envShort : PEnv := ⟨.ok ["r"], fun d => .ok d, fsShort⟩

/-- A detached HEAD of twenty two-byte characters (forty bytes). -/
def headMulti : String := "éééééééééééééééééééé"

/-- A repository whose HEAD is `headMulti`. -/
def fsMulti : FS := ⟨[
  (["r", ".git"], .dir),
  (["r", ".git", "HEAD"], .file true headMulti)
]⟩

/-- Probe environment over `fsMulti`. -/
def envMulti : PEnv := ⟨.ok ["r"], fun d => .ok d, fsMulti⟩

/-- A repository whose `.git` marker is a file redirecting to the relative path
`meta`.  The directory `/repo/sub/meta` (relative to the working directory)
holds a detached HEAD; the directory `/repo/meta` (relative to the marker's
parent) holds nothing. -/
def fsRel : FS := ⟨[
  (["repo", ".git"], .file true "gitdir: meta\n"),
  (["repo", "sub", "meta", "HEAD"],
    .file true "aaaaaaaaaaaaaaaaaaaaaaaaaaaaaaaaaaaaaaaa\n")
]⟩

/-- Probe environment over `fsRel`, run from `/repo/sub`. -/
def envRel : PEnv := ⟨.ok ["repo", "sub"], fun d => .ok d, fsRel⟩

/-- A repository with a detached ASCII head of forty `a` characters. -/
def fsDetached : FS := ⟨[
  (["r", ".git"], .dir),
  (["r", ".git", "HEAD"], .file true "aaaaaaaaaaaaaaaaaaaaaaaaaaaaaaaaaaaaaaaa\n")
]⟩

/-- Probe environment over `fsDetached`. -/
def envDetached : PEnv := ⟨.ok ["r"], fun d => .ok d, fsDetached⟩

/-- A symbolic HEAD naming `..`, whose ref file is readable: `Path::file_name`
of `..` is `None`, so this drives the probe into its `NoRefName` failure. -/
def fsDotDot : FS := ⟨[
  (["r", ".git"], .dir),
  (["r", ".git", "HEAD"], .file true "ref: ..\n"),
  (["r", ".git", ".."], .file true "0123456789abcdef0123456789abcdef01234567\n")
]⟩

/-- Probe environment over `fsDotDot`. -/
def envDotDot : PEnv := ⟨.ok ["r"], fun d => .ok d, fsDotDot⟩

/-- Like `fsDotDot` but without the ref file, so reading the ref fails. -/
def fsDotDotNoRef : FS := ⟨[
  (["r", ".git"], .dir),
  (["r", ".git", "HEAD"], .file true "ref: ..\n")
]⟩

/-- Probe environment over `fsDotDotNoRef`. -/
def envDotDotNoRef : PEnv := ⟨.ok ["r"], fun d => .ok d, fsDotDotNoRef⟩

/-- An empty filesystem: nowhere a repository. -/
def envEmpty : PEnv := ⟨.ok ["x", "y"], fun d => .ok d, ⟨[]⟩⟩

/-- A `.git` marker file whose content lacks the `gitdir: ` magic. -/
def fsGarbage : FS := ⟨[
  (["repo", ".git"], .file true "garbage")
]⟩

/-- Probe environment over `fsGarbage`. -/
def envGarbage : PEnv := ⟨.ok ["repo"], fun d => .ok d, fsGarbage⟩

/-- An environment whose working directory cannot be determined. -/
def envNoCwd : PEnv := ⟨.error (), fun d => .ok d, ⟨[]⟩⟩

/-- An environment whose working directory cannot be canonicalized. -/
def envNoCanon : PEnv := ⟨.ok ["x"], fun _ => .error (), ⟨[]⟩⟩

/-- A repository on branch `main` whose ref file holds only the three
characters `abc`, driving the ref-file slice of main.rs line 392 below
fourteen bytes. -/
def fsShortRef : FS := ⟨[
  (["r", ".git"], .dir),
  (["r", ".git", "HEAD"], .file true "ref: refs/heads/main\n"),
  (["r", ".git", "refs", "heads", "main"], .file true "abc")
]⟩

/-- Probe environment over `fsShortRef`. -/
def envShortRef : PEnv := ⟨.ok ["r"], fun d => .ok d, fsShortRef⟩

/-! Helper lemmas about the string and list operations. -/

/-- Stripping a literal that the string begins with returns the remainder. -/
theorem stripStart_append (pat r : String) : stripStart pat (pat ++ r) = some r := by
  simp [stripStart, String.data_append, List.isPrefixOf_iff_prefix, List.prefix_append,
    List.drop_left]

/-- Stripping a literal that is not a prefix returns nothing. -/
theorem stripStart_eq_none (pat s : String)
    (h : pat.data.isPrefixOf s.data = false) : stripStart pat s = none := by
  simp [stripStart, h]

/-- Taking a prefix of the length of the left summand from an appended list
yields a prefix of the left summand. -/
theorem take_append_of_le {α : Type} (l₁ l₂ : List α) (n : Nat) (h : n ≤ l₁.length) :
    (l₁ ++ l₂).take n = l₁.take n := by
  induction l₁ generalizing n with
  | nil =>
    have : n = 0 := Nat.le_zero.mp h
    simp [this]
  | cons a as ih =>
    cases n with
    | zero => simp
    | succ n => simp [List.take_succ_cons, ih n (Nat.le_of_succ_le_succ h)]

/-- On a list of single-byte characters, taking `n` bytes is taking `n`
characters. -/
theorem takeBytes_ascii (l : List Char) (n : Nat) (hn : n ≤ l.length)
    (h : ∀ c ∈ l.take n, c.utf8Size = 1) :
    takeBytes l n = some (l.take n) := by
  induction n generalizing l with
  | zero => simp [takeBytes]
  | succ n ih =>
    match l with
    | [] => simp at hn
    | c :: cs =>
      have hc : c.utf8Size = 1 := h c (by simp)
      have hcs : takeBytes cs n = some (cs.take n) := by
        apply ih
        · exact Nat.le_of_succ_le_succ hn
        · intro x hx
          exact h x (by simp [List.take_succ_cons, hx])
      simp [takeBytes, hc, hcs]

/-- Every hexadecimal digit is a single-byte character. -/
theorem hexDigits_utf8 : ∀ c ∈ hexDigits, c.utf8Size = 1 := by decide

/-- For a string whose first fourteen characters are hexadecimal digits and
which has at least fourteen characters, the Rust slice of the first fourteen
bytes succeeds and returns the first fourteen characters. -/
theorem byteTake_take14 (s : String) (hlen : 14 ≤ s.data.length)
    (hhex : ∀ c ∈ s.data.take 14, c ∈ hexDigits) :
    byteTake s 14 = some (String.mk (s.data.take 14)) := by
  unfold byteTake
  rw [takeBytes_ascii s.data 14 hlen (fun c hc => hexDigits_utf8 c (hhex c hc))]
  rfl

/-! Helper lemmas about the walk and the probe's stages. -/

/-- The structural walk is the first-match search over the reversed-form
ancestor chain. -/
theorem findRepoAux_eq_find (fs : FS) (r : List String) :
    findRepoAux fs r = (ancestorsRev r).find? (fun d => dirHasGit fs d) := by
  induction r with
  | nil =>
    simp only [findRepoAux, ancestorsRev, List.find?_cons]
    cases hg : dirHasGit fs [] <;> simp [hg]
  | cons x xs ih =>
    simp only [findRepoAux, ancestorsRev, List.find?_cons]
    generalize (x :: xs).reverse = d
    cases hx : dirHasGit fs d <;> simp [hx, ih]

/-- Membership in the reversed-form ancestor chain. -/
theorem mem_ancestorsRev (a : List String) (r : List String) :
    a ∈ ancestorsRev r ↔ a.reverse <:+ r := by
  induction r with
  | nil => simp [ancestorsRev, List.reverse_eq_nil_iff]
  | cons x xs ih =>
    simp only [ancestorsRev, List.mem_cons, ih, List.suffix_cons_iff]
    constructor
    · rintro (rfl | hs)
      · left; simp
      · right; exact hs
    · rintro (he | hs)
      · left
        rw [← he, List.reverse_reverse]
      · right; exact hs

/-- The walk visits exactly the starting directory and its ancestors. -/
theorem mem_ancestors (a d : List String) : a ∈ ancestors d ↔ a <+: d := by
  rw [ancestors, mem_ancestorsRev]
  conv_rhs => rw [← List.reverse_suffix]

/-- The walk as a first-match search over the ancestor chain. -/
theorem findRepo_eq_find (fs : FS) (d : List String) :
    findRepo fs d = (ancestors d).find? (fun a => dirHasGit fs a) :=
  findRepoAux_eq_find fs d.reverse

/-- Unfolding of the probe when the environment is healthy and a repository
root was found. -/
theorem get_git_info_atRepo (env : PEnv) (cwd cc repo : List String)
    (h1 : env.currentDir = .ok cwd) (h2 : env.canonical cwd = .ok cc)
    (h3 : findRepo env.fs cc = some repo) :
    get_git_info env = gitInfoAtRepo env.fs cwd repo := by
  simp [get_git_info, h1, h2, h3]

/-- Unfolding of the probe when the walk exhausts all ancestors. -/
theorem get_git_info_notRepo (env : PEnv) (cwd cc : List String)
    (h1 : env.currentDir = .ok cwd) (h2 : env.canonical cwd = .ok cc)
    (h3 : findRepo env.fs cc = none) :
    get_git_info env = .err .NotGitRepo := by
  simp [get_git_info, h1, h2, h3]

/-- Unfolding of the probe down to the resolved metadata directory. -/
theorem get_git_info_withGitDir (env : PEnv) (cwd cc repo : List String) (gitDir : RPath)
    (h1 : env.currentDir = .ok cwd) (h2 : env.canonical cwd = .ok cc)
    (h3 : findRepo env.fs cc = some repo)
    (h4 : resolveGitDir env.fs repo = .ok gitDir) :
    get_git_info env = gitInfoWithGitDir env.fs cwd gitDir := by
  simp [get_git_info, gitInfoAtRepo, h1, h2, h3, h4]

/-- Redirect resolution on a readable marker file with the expected magic. -/
theorem resolveGitDir_redirect (fs : FS) (repo : List String) (content v : String)
    (hfile : fs.lookup (repo ++ [".git"]) = some (.file true content))
    (hstrip : stripStart "gitdir: " content = some v) :
    resolveGitDir fs repo = .ok (parsePath (strTrim v)) := by
  simp [resolveGitDir, FS.isFile, FS.readToString, hfile, hstrip]

/-- Redirect resolution can only fail with the unreadable-marker or the
malformed-content error. -/
theorem resolveGitDir_error_cases (fs : FS) (repo : List String) (e : GitError)
    (h : resolveGitDir fs repo = .error e) :
    e = .ReadGitFile ∨ e = .UnexpectedGitContent := by
  unfold resolveGitDir at h
  split at h
  · split at h
    · left
      cases h
      rfl
    · split at h
      · cases h
      · right
        cases h
        rfl
  · cases h

/-- Inversion: the head-and-ref stage returns the no-ref-name failure only
after the HEAD was read, classified as symbolic, and the ref file itself was
successfully read. -/
theorem gitInfoWithGitDir_noRefName (fs : FS) (cwd : List String) (gitDir : RPath)
    (h : gitInfoWithGitDir fs cwd gitDir = .err .NoRefName) :
    ∃ hc restStr id,
      fs.readToString (resolve cwd (gitDir.join ⟨false, ["HEAD"]⟩)) = .ok hc ∧
      stripStart "ref: " hc = some restStr ∧
      fs.readToString (resolve cwd (gitDir.join (parsePath (strTrim restStr)))) = .ok id := by
  unfold gitInfoWithGitDir at h
  cases hh : fs.readToString (resolve cwd (gitDir.join ⟨false, ["HEAD"]⟩)) with
  | error u => rw [hh] at h; simp at h
  | ok hc =>
    rw [hh] at h
    simp only at h
    cases hs : stripStart "ref: " hc with
    | none =>
      rw [hs] at h
      simp only at h
      cases hb : byteTake hc 14 <;> rw [hb] at h <;> simp at h
    | some restStr =>
      rw [hs] at h
      simp only at h
      cases hr : fs.readToString (resolve cwd (gitDir.join (parsePath (strTrim restStr)))) with
      | error u => rw [hr] at h; simp at h
      | ok id => exact ⟨hc, restStr, id, rfl, hs, hr⟩

/-- Inversion: the whole probe returns the no-ref-name failure only when the
environment is healthy, a repository root and metadata directory were found,
HEAD was read and classified symbolic, and the ref file was successfully
read. -/
theorem get_git_info_noRefName (env : PEnv)
    (h : get_git_info env = .err .NoRefName) :
    ∃ cwd cc repo gitDir hc restStr id,
      env.currentDir = .ok cwd ∧ env.canonical cwd = .ok cc ∧
      findRepo env.fs cc = some repo ∧
      resolveGitDir env.fs repo = .ok gitDir ∧
      env.fs.readToString (resolve cwd (gitDir.join ⟨false, ["HEAD"]⟩)) = .ok hc ∧
      stripStart "ref: " hc = some restStr ∧
      env.fs.readToString (resolve cwd (gitDir.join (parsePath (strTrim restStr)))) = .ok id := by
  unfold get_git_info at h
  cases hcd : env.currentDir with
  | error u => rw [hcd] at h; simp at h
  | ok cwd =>
    rw [hcd] at h
    simp only at h
    cases hca : env.canonical cwd with
    | error u => rw [hca] at h; simp at h
    | ok cc =>
      rw [hca] at h
      simp only at h
      cases hfr : findRepo env.fs cc with
      | none => rw [hfr] at h; simp at h
      | some repo =>
        rw [hfr] at h
        simp only at h
        unfold gitInfoAtRepo at h
        cases hrg : resolveGitDir env.fs repo with
        | error e =>
          rw [hrg] at h
          simp only at h
          rcases resolveGitDir_error_cases env.fs repo e hrg with rfl | rfl <;> simp at h
        | ok gitDir =>
          rw [hrg] at h
          simp only at h
          obtain ⟨hc, restStr, id, hh, hs, hr⟩ :=
            gitInfoWithGitDir_noRefName env.fs cwd gitDir h
          exact ⟨cwd, cc, repo, gitDir, hc, restStr, id, rfl, hca, hfr, hrg, hh, hs, hr⟩

/-! Claim theorems. -/

/-- C1: the claim states that HEAD (or resolved-ref) content shorter than 14
characters yields a reportable failure value and never a panic.  The code
contradicts this: on the three-character HEAD content of `envShort` the slice
`&head_content[..14]` is out of range and `get_git_info` panics instead of
returning a `GitError`. -/
theorem C1_short_head_panics : get_git_info envShort = .panicked := by decide

/-- C9: the probe is a deterministic function of the probe environment (the
working-directory lookup, the canonicalization behaviour and the on-disk
state): equal environments give byte-identical outcomes.  The embedding has no
other input and retains no state across calls, mirroring the source, whose
locals all die at the end of the call. -/
theorem C9_deterministic_thm (e1 e2 : PEnv) (h : e1 = e2) :
    get_git_info e1 = get_git_info e2 := by rw [h]

/-- Witness for C9 at a concrete repository state. -/
theorem C9_deterministic_witness : get_git_info envMain = get_git_info envMain :=
  C9_deterministic_thm envMain envMain rfl

/-- C8: an undeterminable working directory yields the `NoCwd` failure and a
working directory that cannot be canonicalized yields the `CanonicalCwd`
failure, both distinct from the not-a-repository failure `NotGitRepo`. -/
theorem C8_env_failure_thm (env : PEnv) :
    (env.currentDir = .error () → get_git_info env = .err .NoCwd) ∧
    (∀ cwd, env.currentDir = .ok cwd → env.canonical cwd = .error () →
      get_git_info env = .err .CanonicalCwd) ∧
    GitError.NoCwd ≠ GitError.NotGitRepo ∧
    GitError.CanonicalCwd ≠ GitError.NotGitRepo := by
  refine ⟨fun h => by simp [get_git_info, h],
    fun cwd h1 h2 => by simp [get_git_info, h1, h2], by decide, by decide⟩

/-- Witness for C8: both environment failures at concrete environments. -/
theorem C8_env_failure_witness :
    get_git_info envNoCwd = .err .NoCwd ∧
    get_git_info envNoCanon = .err .CanonicalCwd :=
  ⟨(C8_env_failure_thm envNoCwd).1 rfl,
   (C8_env_failure_thm envNoCanon).2.1 ["x"] rfl rfl⟩

/-- C7: a marker file whose readable content does not start with the exact
magic `gitdir: ` drives the probe into the `UnexpectedGitContent` failure,
which is distinct from the read failures (`ReadGitFile`, `ReadHead`,
`ReadRef`) and from the absence failure (`NotGitRepo`). -/
theorem C7_bad_redirect_thm (env : PEnv) (cwd cc repo : List String) (content : String)
    (h1 : env.currentDir = .ok cwd) (h2 : env.canonical cwd = .ok cc)
    (h3 : findRepo env.fs cc = some repo)
    (h4 : env.fs.lookup (repo ++ [".git"]) = some (.file true content))
    (h5 : "gitdir: ".data.isPrefixOf content.data = false) :
    get_git_info env = .err .UnexpectedGitContent ∧
    GitError.UnexpectedGitContent ≠ GitError.ReadGitFile ∧
    GitError.UnexpectedGitContent ≠ GitError.ReadHead ∧
    GitError.UnexpectedGitContent ≠ GitError.ReadRef ∧
    GitError.UnexpectedGitContent ≠ GitError.NotGitRepo := by
  refine ⟨?_, by decide, by decide, by decide, by decide⟩
  have hres : resolveGitDir env.fs repo = .error .UnexpectedGitContent := by
    simp [resolveGitDir, FS.isFile, FS.readToString, h4, stripStart_eq_none _ _ h5]
  rw [get_git_info_atRepo env cwd cc repo h1 h2 h3]
  simp [gitInfoAtRepo, hres]

/-- Witness for C7 at a marker file containing `garbage`. -/
theorem C7_bad_redirect_witness :
    get_git_info envGarbage = .err .UnexpectedGitContent :=
  (C7_bad_redirect_thm envGarbage ["repo"] ["repo"] ["repo"] "garbage"
    rfl rfl (by decide) rfl (by decide)).1

/-- C6: the locator tests exactly the canonicalized starting directory and its
ancestors (one parent per step, no skipping, nearest first); the probe
proceeds with the first (nearest) directory owning a `.git` child, and when no
ancestor up to the root owns one it returns the `NotGitRepo` failure. -/
theorem C6_walk_thm (env : PEnv) (cwd cc : List String)
    (h1 : env.currentDir = .ok cwd) (h2 : env.canonical cwd = .ok cc) :
    (∀ a, a ∈ ancestors cc ↔ a <+: cc) ∧
    findRepo env.fs cc = (ancestors cc).find? (fun a => dirHasGit env.fs a) ∧
    ((∀ a, a <+: cc → dirHasGit env.fs a = false) →
      get_git_info env = .err .NotGitRepo) ∧
    (∀ repo, findRepo env.fs cc = some repo →
      dirHasGit env.fs repo = true ∧ get_git_info env = gitInfoAtRepo env.fs cwd repo) := by
  refine ⟨fun a => mem_ancestors a cc, findRepo_eq_find env.fs cc, ?_, ?_⟩
  · intro hall
    apply get_git_info_notRepo env cwd cc h1 h2
    rw [findRepo_eq_find, List.find?_eq_none]
    intro a ha
    simp [hall a ((mem_ancestors a cc).mp ha)]
  · intro repo hrepo
    refine ⟨?_, get_git_info_atRepo env cwd cc repo h1 h2 hrepo⟩
    have := List.find?_some (by rw [← findRepo_eq_find]; exact hrepo)
    simpa using this

/-- Witness for C6: a filesystem without any marker gives the absence
failure. -/
theorem C6_walk_witness : get_git_info envEmpty = .err .NotGitRepo :=
  (C6_walk_thm envEmpty ["x", "y"] ["x", "y"] rfl rfl).2.2.1 (fun _ _ => rfl)

/-- Slicing fourteen bytes from a string that starts with at least fourteen
hexadecimal characters returns those first fourteen characters, whatever
follows them. -/
theorem byteTake_hex_append (id tl : String) (hlen : 14 ≤ id.data.length)
    (hhex : ∀ c ∈ id.data, c ∈ hexDigits) :
    byteTake (id ++ tl) 14 = some (String.mk (id.data.take 14)) := by
  have hd : (id ++ tl).data = id.data ++ tl.data := String.data_append id tl
  have htake : (id.data ++ tl.data).take 14 = id.data.take 14 :=
    take_append_of_le id.data tl.data 14 hlen
  have hmain := byteTake_take14 (id ++ tl)
    (by rw [hd, List.length_append]; omega)
    (fun c hc => by
      rw [hd, htake] at hc
      exact hhex c (List.mem_of_mem_take hc))
  rw [hmain, hd, htake]

/-- C4: a symbolic HEAD of the form `ref: ` plus a reference path whose ref
file holds a forty-character hexadecimal revision id (however terminated)
makes the probe output the final path segment of the reference path, a space,
and the first fourteen characters of the revision id, wrapped in the green
bold decoration. -/
theorem C4_symbolic_format_thm (env : PEnv) (cwd cc repo : List String) (gitDir : RPath)
    (rest id tl name : String)
    (h1 : env.currentDir = .ok cwd) (h2 : env.canonical cwd = .ok cc)
    (h3 : findRepo env.fs cc = some repo)
    (h4 : resolveGitDir env.fs repo = .ok gitDir)
    (h5 : env.fs.readToString (resolve cwd (gitDir.join ⟨false, ["HEAD"]⟩)) =
      .ok ("ref: " ++ rest))
    (h6 : env.fs.readToString (resolve cwd (gitDir.join (parsePath (strTrim rest)))) =
      .ok (id ++ tl))
    (h7 : id.data.length = 40)
    (h8 : ∀ c ∈ id.data, c ∈ hexDigits)
    (h9 : (parsePath (strTrim rest)).fileName = some name) :
    get_git_info env = .ok (ansiGreenBold (name ++ " " ++ String.mk (id.data.take 14))) := by
  have hb : byteTake (id ++ tl) 14 = some (String.mk (id.data.take 14)) :=
    byteTake_hex_append id tl (by omega) h8
  rw [get_git_info_withGitDir env cwd cc repo gitDir h1 h2 h3 h4]
  simp [gitInfoWithGitDir, h5, stripStart_append, h6, hb, h9]

/-- Witness for C4: branch `main` at a concrete forty-character revision id. -/
theorem C4_symbolic_format_witness :
    get_git_info envMain = .ok (ansiGreenBold "main 0123456789abcd") := by
  rw [C4_symbolic_format_thm envMain ["r", "sub"] ["r", "sub"] ["r"] ⟨true, ["r", ".git"]⟩
    "refs/heads/main\n" "0123456789abcdef0123456789abcdef01234567" "\n" "main"
    rfl rfl (by decide) rfl rfl rfl (by decide) (by decide) (by decide)]
  decide

/-- C5: HEAD content that does not start with the literal `ref: ` is treated
as a detached head, and when it holds a forty-character hexadecimal revision
id directly (however terminated) the probe outputs exactly its first fourteen
characters with no symbolic-name part, wrapped in the green bold
decoration. -/
theorem C5_detached_format_thm (env : PEnv) (cwd cc repo : List String) (gitDir : RPath)
    (id tl : String)
    (h1 : env.currentDir = .ok cwd) (h2 : env.canonical cwd = .ok cc)
    (h3 : findRepo env.fs cc = some repo)
    (h4 : resolveGitDir env.fs repo = .ok gitDir)
    (h5 : env.fs.readToString (resolve cwd (gitDir.join ⟨false, ["HEAD"]⟩)) =
      .ok (id ++ tl))
    (h6 : "ref: ".data.isPrefixOf (id ++ tl).data = false)
    (h7 : id.data.length = 40)
    (h8 : ∀ c ∈ id.data, c ∈ hexDigits) :
    get_git_info env = .ok (ansiGreenBold (String.mk (id.data.take 14))) := by
  have hb : byteTake (id ++ tl) 14 = some (String.mk (id.data.take 14)) :=
    byteTake_hex_append id tl (by omega) h8
  rw [get_git_info_withGitDir env cwd cc repo gitDir h1 h2 h3 h4]
  simp [gitInfoWithGitDir, h5, stripStart_eq_none _ _ h6, hb]

/-- Witness for C5 at a detached head of forty `a` characters. -/
theorem C5_detached_format_witness :
    get_git_info envDetached = .ok (ansiGreenBold "aaaaaaaaaaaaaa") := by
  rw [C5_detached_format_thm envDetached ["r"] ["r"] ["r"] ⟨true, ["r", ".git"]⟩
    "aaaaaaaaaaaaaaaaaaaaaaaaaaaaaaaaaaaaaaaa" "\n"
    rfl rfl (by decide) rfl rfl (by decide) (by decide) (by decide)]
  decide

/-- C2 counterexample: on the twenty-character two-byte-per-character HEAD of
`envMulti`, the probe outputs the first seven characters (fourteen bytes), not
the first fourteen characters the claim prescribes: the slice counts bytes,
not characters. -/
theorem C2_char_count_cex :
    get_git_info envMulti = .ok (ansiGreenBold (String.mk (headMulti.data.take 7))) ∧
    String.mk (headMulti.data.take 7) ≠ String.mk (headMulti.data.take 14) := by
  constructor <;> decide

/-- C2 as amended: both fourteen-character slices of the source count bytes,
not characters.  Part one: on a detached head (main.rs line 400) the outcome
is the byte slice of the HEAD content, panicking when the content is shorter
than fourteen bytes or byte offset fourteen falls inside a character.  Part
two: on a symbolic head (main.rs line 392) the outcome is likewise the byte
slice of the ref-file content, with the same panic cases, before the ref name
is even considered.  Part three: on single-byte (for instance ASCII
hexadecimal) content of at least fourteen characters the fourteen bytes
coincide with the first fourteen characters, so only there does the slice
agree with the claim's character count. -/
theorem C2_byte_slice_thm (env : PEnv) :
    (∀ (cwd cc repo : List String) (gitDir : RPath) (hc : String),
      env.currentDir = .ok cwd → env.canonical cwd = .ok cc →
      findRepo env.fs cc = some repo → resolveGitDir env.fs repo = .ok gitDir →
      env.fs.readToString (resolve cwd (gitDir.join ⟨false, ["HEAD"]⟩)) = .ok hc →
      "ref: ".data.isPrefixOf hc.data = false →
      get_git_info env = (match byteTake hc 14 with
        | some s => Outcome.ok (ansiGreenBold s)
        | none => Outcome.panicked)) ∧
    (∀ (cwd cc repo : List String) (gitDir : RPath) (rest ch : String),
      env.currentDir = .ok cwd → env.canonical cwd = .ok cc →
      findRepo env.fs cc = some repo → resolveGitDir env.fs repo = .ok gitDir →
      env.fs.readToString (resolve cwd (gitDir.join ⟨false, ["HEAD"]⟩)) =
        .ok ("ref: " ++ rest) →
      env.fs.readToString (resolve cwd (gitDir.join (parsePath (strTrim rest)))) =
        .ok ch →
      get_git_info env = (match byteTake ch 14 with
        | none => Outcome.panicked
        | some s =>
          match (parsePath (strTrim rest)).fileName with
          | none => Outcome.err .NoRefName
          | some name => Outcome.ok (ansiGreenBold (name ++ " " ++ s)))) ∧
    (∀ s : String, (∀ c ∈ s.data, c.utf8Size = 1) → 14 ≤ s.data.length →
      byteTake s 14 = some (String.mk (s.data.take 14))) := by
  refine ⟨?_, ?_, ?_⟩
  · intro cwd cc repo gitDir hc h1 h2 h3 h4 h5 h6
    rw [get_git_info_withGitDir env cwd cc repo gitDir h1 h2 h3 h4]
    simp only [gitInfoWithGitDir, h5, stripStart_eq_none _ _ h6]
    cases byteTake hc 14 <;> rfl
  · intro cwd cc repo gitDir rest ch h1 h2 h3 h4 h5 h6
    rw [get_git_info_withGitDir env cwd cc repo gitDir h1 h2 h3 h4]
    simp only [gitInfoWithGitDir, h5, stripStart_append, h6]
  · intro s hascii hlen
    unfold byteTake
    rw [takeBytes_ascii s.data 14 hlen (fun c hcm => hascii c (List.mem_of_mem_take hcm))]
    rfl

/-- Witness for C2: on the three-byte detached HEAD of `envShort` the slice of
main.rs line 400 is out of range, and on the three-byte ref file of
`envShortRef` the slice of main.rs line 392 is out of range; both outcomes are
the panic the byte-slice model predicts. -/
theorem C2_byte_slice_witness :
    get_git_info envShort = (match byteTake "abc" 14 with
      | some s => Outcome.ok (ansiGreenBold s)
      | none => Outcome.panicked) ∧
    get_git_info envShortRef = (match byteTake "abc" 14 with
      | none => Outcome.panicked
      | some s =>
        match (parsePath (strTrim "refs/heads/main\n")).fileName with
        | none => Outcome.err .NoRefName
        | some name => Outcome.ok (ansiGreenBold (name ++ " " ++ s))) :=
  ⟨(C2_byte_slice_thm envShort).1 ["r"] ["r"] ["r"] ⟨true, ["r", ".git"]⟩ "abc"
      rfl rfl (by decide) rfl rfl (by decide),
   (C2_byte_slice_thm envShortRef).2.1 ["r"] ["r"] ["r"] ⟨true, ["r", ".git"]⟩
      "refs/heads/main\n" "abc" rfl rfl (by decide) rfl rfl rfl⟩

/-- C3 counterexample: with the marker file `/repo/.git` containing
`gitdir: meta` and the probe run from `/repo/sub`, the claim says the
metadata directory is `/repo/meta` (relative to the marker's parent), whose
HEAD is unreadable; yet the probe succeeds, because the code keeps the path
`meta` relative and the read resolves it against the working directory
`/repo/sub`. -/
theorem C3_relative_redirect_cex :
    get_git_info envRel = .ok (ansiGreenBold "aaaaaaaaaaaaaa") ∧
    fsRel.lookup (["repo"] ++ [".git"]) = some (.file true "gitdir: meta\n") ∧
    specRedirectTarget ["repo"] "meta\n" = ["repo", "meta"] ∧
    fsRel.readToString (specRedirectTarget ["repo"] "meta\n" ++ ["HEAD"]) = .error () := by
  refine ⟨by decide, rfl, by decide, rfl⟩

/-- C3 as amended: an absolute redirect target (after trim) is the metadata
directory exactly; a relative one is kept relative, and every read below the
metadata directory resolves it against the process working directory, not the
marker's parent. -/
theorem C3_redirect_thm (env : PEnv) (cwd cc repo : List String) (content v : String)
    (h1 : env.currentDir = .ok cwd) (h2 : env.canonical cwd = .ok cc)
    (h3 : findRepo env.fs cc = some repo)
    (h4 : env.fs.lookup (repo ++ [".git"]) = some (.file true content))
    (h5 : stripStart "gitdir: " content = some v) :
    resolveGitDir env.fs repo = .ok (parsePath (strTrim v)) ∧
    get_git_info env = gitInfoWithGitDir env.fs cwd (parsePath (strTrim v)) ∧
    resolve cwd (parsePath (strTrim v)) =
      (if (parsePath (strTrim v)).abs then (parsePath (strTrim v)).comps
       else cwd ++ (parsePath (strTrim v)).comps) ∧
    (∀ q : RPath, q.abs = false →
      resolve cwd ((parsePath (strTrim v)).join q) =
        resolve cwd (parsePath (strTrim v)) ++ q.comps) := by
  have hres := resolveGitDir_redirect env.fs repo content v h4 h5
  refine ⟨hres, get_git_info_withGitDir env cwd cc repo _ h1 h2 h3 hres, rfl, ?_⟩
  intro q hq
  cases habs : (parsePath (strTrim v)).abs <;>
    simp [resolve, RPath.join, hq, habs, List.append_assoc]

/-- Witness for C3: the probe over the relative redirect of `envRel` proceeds
with the relative metadata path parsed from the marker file. -/
theorem C3_redirect_witness :
    get_git_info envRel = gitInfoWithGitDir fsRel ["repo", "sub"] (parsePath (strTrim "meta\n")) :=
  (C3_redirect_thm envRel ["repo", "sub"] ["repo", "sub"] ["repo"] "gitdir: meta\n" "meta\n"
    rfl rfl (by decide) rfl (by decide)).2.1

/-- C10: in the symbolic-head path the ref file is read before the ref name is
extracted: an unreadable ref file yields the `ReadRef` failure whatever the
reference path looks like (first part, with no assumption on the path's final
segment), and the `NoRefName` failure can only arise after the ref file was
successfully read (second part, an inversion of the probe). -/
theorem C10_order_thm (env : PEnv) :
    (∀ (cwd cc repo : List String) (gitDir : RPath) (rest : String),
      env.currentDir = .ok cwd → env.canonical cwd = .ok cc →
      findRepo env.fs cc = some repo → resolveGitDir env.fs repo = .ok gitDir →
      env.fs.readToString (resolve cwd (gitDir.join ⟨false, ["HEAD"]⟩)) =
        .ok ("ref: " ++ rest) →
      env.fs.readToString (resolve cwd (gitDir.join (parsePath (strTrim rest)))) =
        .error () →
      get_git_info env = .err .ReadRef) ∧
    (get_git_info env = .err .NoRefName →
      ∃ cwd cc repo gitDir hc restStr id,
        env.currentDir = .ok cwd ∧ env.canonical cwd = .ok cc ∧
        findRepo env.fs cc = some repo ∧ resolveGitDir env.fs repo = .ok gitDir ∧
        env.fs.readToString (resolve cwd (gitDir.join ⟨false, ["HEAD"]⟩)) = .ok hc ∧
        stripStart "ref: " hc = some restStr ∧
        env.fs.readToString (resolve cwd (gitDir.join (parsePath (strTrim restStr)))) =
          .ok id) := by
  constructor
  · intro cwd cc repo gitDir rest h1 h2 h3 h4 h5 h6
    rw [get_git_info_withGitDir env cwd cc repo gitDir h1 h2 h3 h4]
    simp [gitInfoWithGitDir, h5, stripStart_append, h6]
  · exact get_git_info_noRefName env

/-- Witness for C10: with the symbolic reference `..` and no readable ref
file the probe fails with `ReadRef` even though the path has no final name
segment, and with a readable ref file at `..` it reaches `NoRefName`, from
which the successful ref read is recovered. -/
theorem C10_order_witness :
    get_git_info envDotDotNoRef = .err .ReadRef ∧
    (∃ cwd cc repo gitDir hc restStr id,
      envDotDot.currentDir = .ok cwd ∧ envDotDot.canonical cwd = .ok cc ∧
      findRepo envDotDot.fs cc = some repo ∧ resolveGitDir envDotDot.fs repo = .ok gitDir ∧
      envDotDot.fs.readToString (resolve cwd (gitDir.join ⟨false, ["HEAD"]⟩)) = .ok hc ∧
      stripStart "ref: " hc = some restStr ∧
      envDotDot.fs.readToString (resolve cwd (gitDir.join (parsePath (strTrim restStr)))) =
        .ok id) := by
  constructor
  · exact (C10_order_thm envDotDotNoRef).1 ["r"] ["r"] ["r"] ⟨true, ["r", ".git"]⟩ "..\n"
      rfl rfl (by decide) rfl rfl rfl
  · exact (C10_order_thm envDotDot).2 (by decide)
